import Mathlib

set_option autoImplicit false

/-
Verification of the mini-framework core (state store, virtual-DOM helpers,
router) against its natural-language specification.  Each JavaScript
function of src/framework is embedded as an executable Lean definition;
mutable fields become explicit state records, thrown exceptions become
Option/Except results, and JavaScript function values that the code never
inspects (subscribers, route handlers) are represented by opaque
identifiers.
-/

namespace MiniFramework

namespace StoreM

/-- A JavaScript object with string keys and values of type V, modelled as
an association list in key order; lookup returns the first binding. -/
abbrev Obj (V : Type) := List (String × V)

/-- Property read: first binding whose key matches, as in a JS object with
unique keys. -/
def lookup {V : Type} (o : Obj V) (k : String) : Option V :=
  (o.find? (fun p => p.1 == k)).map (fun p => p.2)

/-- Model of the object spread in setState, state = { ...state, ...newValues }:
keys already in s keep their position but take the value from x when x
binds them; keys only in x are appended in x's order. -/
def mergeObj {V : Type} (s x : Obj V) : Obj V :=
  (s.map (fun p => (p.1, (lookup x p.1).getD p.2))) ++
    x.filter (fun p => (lookup s p.1).isNone)

/-- Internal mutable fields of the closure created by createState
(src/framework/state.js): the state object, the computed-value cache
(computedCache, a Map keyed by property name) and the subscriber array.
Subscriber function values are opaque to the store, so they are modelled
by identifiers. -/
structure Store (V : Type) where
  state : Obj V
  computedCache : Obj V
  subscribers : List Nat
deriving DecidableEq

/-- Registered computed-property getters (the computedProperties object). -/
abbrev ComputedProps (V : Type) := List (String × (Obj V → V))

def lookupCP {V : Type} (cp : ComputedProps V) (k : String) : Option (Obj V → V) :=
  (cp.find? (fun p => p.1 == k)).map (fun p => p.2)

/-- The argument of setState is either a plain mapping or a functional
update receiving the current snapshot (Helpers.isFunction dispatch). -/
inductive Update (V : Type) where
  | obj (x : Obj V)
  | fn (f : Obj V → Obj V)

/-- getState() with no argument: return the full state as a shallow clone
({ ...state }); in the immutable list model the clone is the object itself. -/
def getStateFull {V : Type} (st : Store V) : Obj V :=
  st.state

/-- Everything setState produces: the updated closure state, the value the
call returns, and the arguments passed to each subscriber (in order), as
the triple (state, oldState, newValues) preceded by the subscriber id. -/
structure SetStateOut (V : Type) where
  store : Store V
  returned : Obj V
  notified : List (Nat × Obj V × Obj V × Obj V)

/-- setState (src/framework/state.js lines 131-156): snapshot the old
state, resolve a functional update on the current snapshot, shallow-merge
the updates into state, clear the computed cache, notify every subscriber
in order with (state, oldState, newValues), and return this.getState().
Persistence (saveState) only writes to an external backend and never
changes the store fields, so it contributes nothing to the model. -/
def setState {V : Type} (st : Store V) (update : Update V) : SetStateOut V :=
  let oldState := st.state
  let newValues :=
    match update with
    | .obj x => x
    | .fn f => f (getStateFull st)
  let newState := mergeObj st.state newValues
  let st' : Store V := { st with state := newState, computedCache := [] }
  { store := st'
    returned := getStateFull st'
    notified := st.subscribers.map (fun s => (s, newState, oldState, newValues)) }

/-- Result of getState(prop): the value read (undefined becomes none), the
store afterwards (the cache may gain an entry) and how many times a
computed getter was invoked during the call. -/
structure GetOut (V : Type) where
  value : Option V
  store : Store V
  getterCalls : Nat

/-- Nested dot-notation lookup, prop.split('.').reduce(...): the first
segment reads the state object, later segments read inside values through
the host's property access, passed in as child. -/
def dotPath {V : Type} (child : V → String → Option V) (state : Obj V) :
    List String → Option V
  | [] => none
  | k :: ks => ks.foldl (fun acc key => acc.bind (fun v => child v key)) (lookup state k)

/-- getState(prop) for a non-empty prop (src/framework/state.js lines
97-120): a registered computed property is served from the cache when
present, otherwise its getter runs once and the value is cached; a prop
containing a dot resolves as a nested path; otherwise the property is read
directly off the state object. -/
def getStateProp {V : Type} (child : V → String → Option V)
    (cp : ComputedProps V) (st : Store V) (prop : String) : GetOut V :=
  match lookupCP cp prop with
  | some getter =>
    match lookup st.computedCache prop with
    | some v => { value := some v, store := st, getterCalls := 0 }
    | none =>
      let v := getter st.state
      { value := some v
        store := { st with computedCache := st.computedCache ++ [(prop, v)] }
        getterCalls := 1 }
  | none =>
    if (prop.toList.contains '.') then
      { value := dotPath child st.state (prop.splitOn "."), store := st, getterCalls := 0 }
    else
      { value := lookup st.state prop, store := st, getterCalls := 0 }

/-- subscribe pushes the callback onto the subscriber array. -/
def subscribe {V : Type} (st : Store V) (cb : Nat) : Store V :=
  { st with subscribers := st.subscribers ++ [cb] }

/-- Body of the unsubscribe closure returned by subscribe: look up the
first index holding the captured callback reference and splice it out;
when the callback is absent (indexOf gives -1) do nothing. -/
def unsubscribe (cb : Nat) (subs : List Nat) : List Nat :=
  match subs.indexOf? cb with
  | some i => subs.eraseIdx i
  | none => subs

end StoreM

namespace DomM

/-- A JavaScript value that can appear in createElement's variadic children
argument list (src/framework/dom.js): the dropped primitives, strings and
numbers, already-constructed virtual nodes (element or text), and nested
arrays.  Virtual element nodes carry their attrs as an opaque key/value
list and their children as further values, since createElement passes
non-primitive children through without inspecting them. -/
inductive RC where
  | rnull
  | rundef
  | rbool (b : Bool)
  | rstr (s : String)
  | rnum (n : Int)
  | relem (tag : String) (attrs : List (String × String)) (children : List RC)
  | rtext (value : String)
  | rarr (xs : List RC)

/-- children.flat(): one level of array flattening, everything else kept. -/
def flat1 (args : List RC) : List RC :=
  args.flatMap (fun c =>
    match c with
    | .rarr xs => xs
    | c => [c])

/-- The filter predicate: child !== null, !== undefined, !== false.
Every other value, including true, 0 and the empty string, is kept. -/
def keep : RC → Bool
  | .rnull => false
  | .rundef => false
  | .rbool b => b
  | _ => true

/-- The map step: a string or number child becomes a text node carrying its
string representation, anything else passes through unchanged. -/
def wrap : RC → RC
  | .rstr s => .rtext s
  | .rnum n => .rtext (toString n)
  | c => c

/-- flatChildren = children.flat().filter(...), then .map into children. -/
def processChildren (args : List RC) : List RC :=
  ((flat1 args).filter keep).map wrap

/-- createElement (src/framework/dom.js lines 21-36). -/
def createElement (tag : String) (attrs : List (String × String))
    (children : List RC) : RC :=
  .relem tag attrs (processChildren children)

/-- updateChildren (src/framework/dom.js lines 191-212) with patch and
render abstracted as function parameters; V is the virtual-node type and D
the live DOM-node type.  The two source loops (patch or append for each
index below the new length, then remove the snapshot child for each
remaining old index) are fused into one positional recursion: while both
sequences have entries the live child at that position is patched, an index
present only in the new sequence renders fresh and appends after whatever
live children remain, and an index present only in the old sequence removes
the live child at that position.  A required live child that does not exist
makes the JS code throw (patch dereferences domElement, removeChild rejects
undefined), modelled by a none result. -/
def updateChildren {V D : Type} (patchF : V → V → D → D) (renderF : V → D) :
    List V → List V → List D → Option (List D)
  | [], [], ds => some ds
  | [], _ :: _, [] => none
  | [], _ :: os, _ :: ds => updateChildren patchF renderF [] os ds
  | ns@(_ :: _), [], ds => some (ds ++ ns.map renderF)
  | _ :: _, _ :: _, [] => none
  | n :: ns, o :: os, d :: ds =>
    (updateChildren patchF renderF ns os ds).map (fun r => patchF n o d :: r)

/-- A node as it can reach render (src/framework/dom.js lines 44-98): the
null or undefined result of a component, a boolean, a text node, or an
element node.  A missing or empty tag is represented by the empty string,
which is falsy in the guard exactly like an absent property. -/
inductive JsNode where
  | jnull
  | jundef
  | jbool (b : Bool)
  | jtext (value : String)
  | jelem (tag : String) (attrs : List (String × String)) (children : List JsNode)

/-- A live DOM node.  Attribute normalization (event prefixes, style
objects, the class alias, boolean attributes) only transforms the attrs
mapping and is irrelevant to the claims over render's early-return paths,
so attrs are carried over verbatim. -/
inductive Dom where
  | dtext (value : String)
  | delem (tag : String) (attrs : List (String × String)) (children : List Dom)

/-- render (src/framework/dom.js lines 44-98), with a structural fuel
bounding the tree depth so the nested recursion over element children stays
kernel-computable; any fuel at least the depth of the node gives the same
result.  Order of the source checks is kept: vNode.type is read first, so a
null or undefined node throws a TypeError (modelled by Except.error) before
the null-or-missing-tag guard can absorb it; a boolean or tag-less node
then returns null leaving the container untouched; a text node appends a
text node; an element renders its children into the fresh element and
appends it. -/
def render : Nat → JsNode → List Dom → Except Unit (List Dom × Option Dom)
  | 0, _, _ => .error ()
  | fuel + 1, v, container =>
    match v with
    | .jtext s => .ok (container ++ [.dtext s], some (.dtext s))
    | .jnull => .error ()
    | .jundef => .error ()
    | .jbool _ => .ok (container, none)
    | .jelem tag attrs children =>
      if tag = "" then .ok (container, none)
      else
        match children.foldlM (fun acc c => (render fuel c acc).map (fun r => r.1)) [] with
        | .error e => .error e
        | .ok childDoms =>
          .ok (container ++ [.delem tag attrs childDoms], some (.delem tag attrs childDoms))

end DomM

namespace RouterM

/-- A token of the compiled route pattern (src/framework/router.js lines
35-57).  The source builds a regular expression by textual replacement:
a :name segment becomes the greedy capturing group of one or more
non-separator characters, a double star becomes the greedy capturing group
of any characters, a dot of the path stays a bare regex dot matching any
single character, and every other character matches itself.  The embedding
covers paths built from ordinary characters, separators, :name segments and
double stars, the only shapes the source ever feeds it; other regex
metacharacters in a path would change the compiled expression and are
outside the model (and outside the claims). -/
inductive Tok where
  | lit (c : Char)
  | dot
  | seg
  | star
deriving DecidableEq

/-- A word character of the \w regex class: ASCII letters, digits and the
underscore. -/
def isWordChar (c : Char) : Bool :=
  c.isAlpha || c.isDigit || c == '_'

/-- path.replace of double separators by single ones, scanning left to
right without overlap. -/
def collapseSlashes : List Char → List Char
  | '/' :: '/' :: rest => '/' :: collapseSlashes rest
  | c :: rest => c :: collapseSlashes rest
  | [] => []

/-- Tokenizer worker, structurally recursive on a fuel that decreases once
per scanned character so the kernel can evaluate it; every step consumes at
least one character, so a fuel equal to the input length is always enough
and the zero-fuel truncation is unreachable from tokenize. -/
def tokenizeF : Nat → List Char → List Tok
  | _, [] => []
  | 0, _ :: _ => []
  | fuel + 1, ':' :: c :: rest =>
    if isWordChar c then .seg :: tokenizeF fuel (rest.dropWhile isWordChar)
    else .lit ':' :: tokenizeF fuel (c :: rest)
  | fuel + 1, '*' :: '*' :: rest => .star :: tokenizeF fuel rest
  | fuel + 1, '.' :: rest => .dot :: tokenizeF fuel rest
  | fuel + 1, c :: rest => .lit c :: tokenizeF fuel rest

/-- Tokenize the collapsed path: a colon followed by a maximal nonempty
word-character run becomes a seg capture, a double star becomes a star
capture, everything else is literal (with the dot keeping its regex
meaning).  This composes the two remaining textual replace passes of the
source, which cannot interfere: the text a :name replacement inserts
contains no double star, and a double star contains no colon. -/
def tokenize (l : List Char) : List Tok :=
  tokenizeF l.length l

/-- Worker for the parameter-name scan, fueled like tokenizeF. -/
def extractParamsF : Nat → List Char → List String
  | _, [] => []
  | 0, _ :: _ => []
  | fuel + 1, ':' :: c :: rest =>
    if isWordChar c then
      ((c :: rest.takeWhile isWordChar).asString) :: extractParamsF fuel (rest.dropWhile isWordChar)
    else extractParamsF fuel (c :: rest)
  | fuel + 1, _ :: rest => extractParamsF fuel rest

/-- Parameter names are extracted from the original path by the same
regex scan, keeping the text after each colon. -/
def extractParams (l : List Char) : List String :=
  extractParamsF l.length l

/-- Anchored greedy regex matching with backtracking for the compiled token
list, returning the list of captured group texts on success.  The fuel is
consumed once per token, so tokens.length + 1 always suffices; greedy
groups try the longest candidate first exactly like the source's regular
expressions. -/
def tryMatchF : Nat → List Tok → List Char → Option (List String)
  | 0, _, _ => none
  | fuel + 1, ts, s =>
    match ts with
    | [] => if s.isEmpty then some [] else none
    | .lit c :: ts' =>
      match s with
      | [] => none
      | x :: xs => if x = c then tryMatchF fuel ts' xs else none
    | .dot :: ts' =>
      match s with
      | [] => none
      | _ :: xs => tryMatchF fuel ts' xs
    | .seg :: ts' =>
      let maxRun := (s.takeWhile (fun c => c ≠ '/')).length
      ((List.range maxRun).reverse.map (fun k => k + 1)).findSome? (fun k =>
        (tryMatchF fuel ts' (s.drop k)).map (fun caps => ((s.take k).asString) :: caps))
    | .star :: ts' =>
      (List.range (s.length + 1)).reverse.findSome? (fun k =>
        (tryMatchF fuel ts' (s.drop k)).map (fun caps => ((s.take k).asString) :: caps))

/-- path.match(route.regexp) for the anchored compiled pattern. -/
def tryMatch (ts : List Tok) (s : List Char) : Option (List String) :=
  tryMatchF (ts.length + 1) ts s

/-- Value of a hexadecimal digit, via the character's code point: decimal
digits start at 48, lowercase letters a-f at 97, uppercase A-F at 65. -/
def hexVal (c : Char) : Option Nat :=
  let n := c.toNat
  if 48 ≤ n ∧ n < 58 then some (n - 48)
  else if 97 ≤ n ∧ n < 103 then some (n - 97 + 10)
  else if 65 ≤ n ∧ n < 71 then some (n - 65 + 10)
  else none

/-- Percent-decoding of a captured segment, the effect of
decodeURIComponent on single-byte escapes; multi-byte UTF-8 sequences and
the URIError on malformed input are outside the claims, which only decode
escape-free text. -/
def percentDecode : List Char → List Char
  | '%' :: a :: b :: rest =>
    match hexVal a, hexVal b with
    | some ha, some hb => Char.ofNat (ha * 16 + hb) :: percentDecode rest
    | _, _ => '%' :: percentDecode (a :: b :: rest)
  | c :: rest => c :: percentDecode rest
  | [] => []

def decodeURI (s : String) : String :=
  (percentDecode s.toList).asString

/-- A registered route (this.routes entry): original path, compiled
matcher, parameter names in order of appearance, the handler (opaque to
the router, an identifier here) and the metadata object (also opaque). -/
structure RouteEntry where
  path : String
  toks : List Tok
  paramNames : List String
  handlerId : Nat
  meta : Nat
deriving DecidableEq

/-- add (src/framework/router.js lines 35-57): compile the path and push
the route entry; returns the grown table (the source returns this for
chaining). -/
def add (routes : List RouteEntry) (path : String) (handlerId meta : Nat) :
    List RouteEntry :=
  routes ++ [{ path := path
               toks := tokenize (collapseSlashes path.toList)
               paramNames := extractParams path.toList
               handlerId := handlerId
               meta := meta }]

/-- JS object property assignment params[name] = value: overwrite the
binding in place when the key exists, append otherwise. -/
def setParam (ps : List (String × String)) (k v : String) :
    List (String × String) :=
  if ps.any (fun p => p.1 == k) then
    ps.map (fun p => if p.1 == k then (k, v) else p)
  else ps ++ [(k, v)]

/-- Parameter extraction of match: when the route declared parameter names,
every capture is assigned positionally to the name at its index, decoded;
a capture beyond the name list lands on the key "undefined" because
paramNames[index] is undefined and object keys are strings.  With no
declared names the params object stays empty, discarding all captures. -/
def buildParams (paramNames : List String) (captures : List String) :
    List (String × String) :=
  if paramNames.length > 0 then
    captures.enum.foldl
      (fun ps iv => setParam ps ((paramNames.get? iv.1).getD "undefined") (decodeURI iv.2))
      []
  else []

/-- Successful result of match: the route and its extracted params. -/
structure MatchResult where
  entry : RouteEntry
  params : List (String × String)
deriving DecidableEq

/-- match (src/framework/router.js lines 86-108): try the routes in
registration order; the first whose pattern matches wins. -/
def matchPath : List RouteEntry → String → Option MatchResult
  | [], _ => none
  | r :: rs, p =>
    match tryMatch r.toks p.toList with
    | some caps => some { entry := r, params := buildParams r.paramNames caps }
    | none => matchPath rs p

/-- The current route value {path, params, meta}. -/
structure CurrentRoute where
  path : String
  params : List (String × String)
  meta : Nat
deriving DecidableEq

/-- Mutable router fields touched by handleRouteChange.  Handlers and hooks
are function values the router only calls, so they stay outside the state:
the hook is passed to handleRouteChange directly and handler invocations
are reported as events. -/
structure RouterSt where
  routes : List RouteEntry
  currentRoute : Option CurrentRoute
  currentHash : String
  locationHash : String
  defaultRoute : String
deriving DecidableEq

/-- What a beforeEach hook resolved to: exactly false, or anything else.
Only the strict comparison next === false cancels the transition. -/
inductive HookRes where
  | isFalse
  | other
deriving DecidableEq

/-- getCurrentRoute (src/framework/router.js lines 189-191). -/
def getCurrentRoute (st : RouterSt) : Option CurrentRoute :=
  st.currentRoute

/-- The effective path of handleRouteChange:
path || window.location.hash.slice(1) || this.defaultRoute, where the empty
string is falsy. -/
def resolvePath (st : RouterSt) (path? : Option String) : String :=
  match path? with
  | some p => if p = "" then (if st.locationHash = "" then st.defaultRoute else st.locationHash) else p
  | none => if st.locationHash = "" then st.defaultRoute else st.locationHash

/-- The candidate current-route value built from the match result. -/
def candidateOf (st : RouterSt) (p : String) : Option CurrentRoute :=
  (matchPath st.routes p).map (fun m => { path := p, params := m.params, meta := m.entry.meta })

/-- Observable calls handleRouteChange makes after the before hook:
the matched route handler with (params, currentRoute), the notFound
handler with the path, the afterEach hook with (currentRoute,
previousRoute), and notifyListeners with the current route (the argument
every route-change listener receives). -/
structure RouteEvents where
  handlerCalled : Option (Nat × List (String × String) × Option CurrentRoute)
  notFoundCalled : Option String
  afterCalled : Option (Option CurrentRoute × Option CurrentRoute)
  listenersNotified : Option (Option CurrentRoute)
deriving DecidableEq

def noEvents : RouteEvents :=
  { handlerCalled := none, notFoundCalled := none, afterCalled := none
    listenersNotified := none }

/-- handleRouteChange (src/framework/router.js lines 114-154): resolve the
effective path, match it, remember the previous route, assign the candidate
to currentRoute, then run the before hook; a hook resolving to exactly
false returns at once, after the reassignment and before any handler,
afterEach or listener runs.  Otherwise the handler (or the notFound
handler) fires, then afterEach, then every listener with the new current
route.  The hook is a function of (candidateRoute, previousRoute); hasNF
and hasAfter say whether a notFoundHandler and an afterEach were
configured. -/
def handleRouteChange
    (beforeE : Option (Option CurrentRoute → Option CurrentRoute → HookRes))
    (hasNF hasAfter : Bool) (st : RouterSt) (path? : Option String) :
    RouterSt × RouteEvents :=
  let currentPath := resolvePath st path?
  let matched := matchPath st.routes currentPath
  let previousRoute := st.currentRoute
  let newCurrent : Option CurrentRoute :=
    matched.map (fun m => { path := currentPath, params := m.params, meta := m.entry.meta })
  let st1 : RouterSt := { st with currentHash := currentPath, currentRoute := newCurrent }
  let proceed : RouterSt × RouteEvents :=
    (st1,
      { handlerCalled := matched.map (fun m => (m.entry.handlerId, m.params, newCurrent))
        notFoundCalled := if matched.isNone && hasNF then some currentPath else none
        afterCalled := if hasAfter then some (newCurrent, previousRoute) else none
        listenersNotified := some newCurrent })
  match beforeE with
  | some hook =>
    match hook newCurrent previousRoute with
    | .isFalse => (st1, noEvents)
    | .other => proceed
  | none => proceed

/-- Does a token compile to a capturing regex group? -/
def isCaptureGroup : Tok → Bool
  | .seg => true
  | .star => true
  | _ => false

/-- The route entry add builds for the path /users/:id. -/
def routeUsersId : RouteEntry :=
  { path := "/users/:id"
    toks := tokenize (collapseSlashes "/users/:id".toList)
    paramNames := extractParams "/users/:id".toList
    handlerId := 0
    meta := 0 }

/-- The route entry add builds for the path /users/:id/:tab. -/
def routeUsersIdTab : RouteEntry :=
  { path := "/users/:id/:tab"
    toks := tokenize (collapseSlashes "/users/:id/:tab".toList)
    paramNames := extractParams "/users/:id/:tab".toList
    handlerId := 1
    meta := 0 }

/-- A router with one route /a registered and no current route, used to
exercise handleRouteChange on a concrete transition. -/
def stEx : RouterSt :=
  { routes := add [] "/a" 0 0
    currentRoute := none
    currentHash := ""
    locationHash := ""
    defaultRoute := "/" }

end RouterM

namespace StoreM

theorem lookup_nil {V : Type} (k : String) : lookup ([] : Obj V) k = none := rfl

theorem lookup_cons {V : Type} (p : String × V) (t : Obj V) (k : String) :
    lookup (p :: t) k = if p.1 == k then some p.2 else lookup t k := by
  by_cases h : p.1 == k <;> simp [lookup, List.find?, h]

theorem lookup_append {V : Type} (a b : Obj V) (k : String) :
    lookup (a ++ b) k = (lookup a k).orElse (fun _ => lookup b k) := by
  induction a with
  | nil => simp [lookup, Option.orElse]
  | cons p t ih =>
    by_cases h : p.1 == k
    · simp [lookup, List.find?, h, Option.orElse]
    · simpa [lookup, List.find?, h, Option.orElse] using ih

theorem lookup_map_override {V : Type} (s x : Obj V) (k : String) :
    lookup (s.map (fun p => (p.1, (lookup x p.1).getD p.2))) k
      = (lookup s k).map (fun v => (lookup x k).getD v) := by
  induction s with
  | nil => simp [lookup]
  | cons p t ih =>
    rw [List.map_cons, lookup_cons, lookup_cons]
    by_cases hk : p.1 == k
    · have hks : p.1 = k := by simpa using hk
      subst hks
      simp
    · simpa [hk] using ih

theorem lookup_filter_new {V : Type} (s x : Obj V) (k : String) :
    lookup (x.filter (fun p => (lookup s p.1).isNone)) k
      = (if (lookup s k).isNone then lookup x k else none) := by
  induction x with
  | nil => simp [lookup]
  | cons p t ih =>
    cases hs : (lookup s p.1).isNone with
    | true =>
      rw [List.filter_cons_of_pos (by simpa using hs), lookup_cons, lookup_cons]
      by_cases hk : p.1 == k
      · have hks : p.1 = k := by simpa using hk
        subst hks
        simp [hs]
      · simpa [hk] using ih
    | false =>
      rw [List.filter_cons_of_neg (by simp [hs]), lookup_cons]
      by_cases hk : p.1 == k
      · have hks : p.1 = k := by simpa using hk
        subst hks
        simp [hs, ih]
      · simpa [hk] using ih

/-- Shallow-merge specification at the level of property reads: a key bound
by the update wins, any other key keeps its prior value. -/
theorem lookup_mergeObj {V : Type} (s x : Obj V) (k : String) :
    lookup (mergeObj s x) k = (lookup x k).orElse (fun _ => lookup s k) := by
  rw [mergeObj, lookup_append, lookup_map_override, lookup_filter_new]
  cases hs : lookup s k with
  | none => cases hx : lookup x k <;> simp [Option.orElse]
  | some v => cases hx : lookup x k <;> simp [Option.orElse]

theorem unsubscribe_eq_erase (cb : Nat) (subs : List Nat) :
    unsubscribe cb subs = subs.erase cb := by
  induction subs with
  | nil => rfl
  | cons a t ih =>
    rw [unsubscribe, List.indexOf?_cons]
    by_cases h : a == cb
    · have : a = cb := by simpa using h
      simp [h, List.erase_cons, this]
    · have hne : ¬ a = cb := by simpa using h
      cases hidx : t.indexOf? cb with
      | none =>
        have ht : t.erase cb = t := by rw [← ih, unsubscribe, hidx]
        rw [if_neg h]
        show a :: t = (a :: t).erase cb
        rw [List.erase_cons_tail (by simpa using hne), ht]
      | some i =>
        have ht : unsubscribe cb t = t.eraseIdx i := by rw [unsubscribe, hidx]
        rw [if_neg h]
        show (a :: t).eraseIdx (i + 1) = (a :: t).erase cb
        rw [List.eraseIdx_cons_succ, List.erase_cons_tail (by simpa using hne), ← ih, ht]

/-- C1: for every prior state and every plain-mapping update x, setState
shallowly merges x over the prior state with keys of x overriding, getState()
with no key immediately afterwards returns exactly that merge, and setState
itself returns the same snapshot. -/
theorem setState_shallow_merge {V : Type} (st : Store V) (x : Obj V) :
    getStateFull (setState st (Update.obj x)).store = mergeObj st.state x
    ∧ (setState st (Update.obj x)).returned = mergeObj st.state x
    ∧ ∀ k, lookup (getStateFull (setState st (Update.obj x)).store) k
        = (lookup x k).orElse (fun _ => lookup st.state k) := by
  refine ⟨rfl, rfl, fun k => ?_⟩
  show lookup (mergeObj st.state x) k = _
  exact lookup_mergeObj st.state x k

/-- C7: after any setState the computed cache is empty; the next
getState(name) for a registered computed property runs the getter exactly
once on the new state and caches the result, and a subsequent getState(name)
with no intervening mutation returns the same value from the cache without
another getter invocation and without changing the store. -/
theorem computed_cache_single_eval {V : Type} (child : V → String → Option V)
    (cp : ComputedProps V) (st : Store V) (u : Update V) (name : String)
    (getter : Obj V → V) (h : lookupCP cp name = some getter) :
    ((setState st u).store.computedCache = [])
    ∧ (getStateProp child cp (setState st u).store name).getterCalls = 1
    ∧ (getStateProp child cp (setState st u).store name).value
        = some (getter (setState st u).store.state)
    ∧ (getStateProp child cp (setState st u).store name).store
        = { (setState st u).store with
            computedCache := [(name, getter (setState st u).store.state)] }
    ∧ (getStateProp child cp
        (getStateProp child cp (setState st u).store name).store name).value
        = some (getter (setState st u).store.state)
    ∧ (getStateProp child cp
        (getStateProp child cp (setState st u).store name).store name).getterCalls = 0
    ∧ (getStateProp child cp
        (getStateProp child cp (setState st u).store name).store name).store
        = (getStateProp child cp (setState st u).store name).store := by
  have hcache : (setState st u).store.computedCache = [] := rfl
  refine ⟨hcache, ?_, ?_, ?_, ?_, ?_, ?_⟩ <;>
    simp [getStateProp, h, hcache, lookup, List.find?]

theorem computed_cache_single_eval_w :
    lookupCP [("total", fun (o : Obj Nat) => o.length)] "total"
        = some (fun (o : Obj Nat) => o.length)
    ∧ (getStateProp (fun _ _ => none) [("total", fun (o : Obj Nat) => o.length)]
        (setState ⟨[("a", 1)], [("total", 99)], []⟩ (Update.obj [("b", 2)])).store
        "total").getterCalls = 1 :=
  ⟨rfl, (computed_cache_single_eval (fun _ _ => none)
    [("total", fun (o : Obj Nat) => o.length)]
    ⟨[("a", 1)], [("total", 99)], []⟩ (Update.obj [("b", 2)]) "total"
    (fun o => o.length) rfl).2.1⟩

/-- C8 counterexample: when the same callback reference has been subscribed
twice, calling the unsubscribe closure twice removes both occurrences while
calling it once removes only the first, so the two observable effects
differ and the claimed idempotence fails. -/
theorem unsubscribe_twice_cex :
    ¬ (unsubscribe 5 (unsubscribe 5 [5, 5]) = unsubscribe 5 [5, 5]) := by decide

/-- C8 amended: when the callback occurs at most once in the subscriber
list, calling the unsubscribe closure twice has the same effect as calling
it once; after the first removal further calls are no-ops. -/
theorem unsubscribe_idempotent_of_single (cb : Nat) (subs : List Nat)
    (h : subs.count cb ≤ 1) :
    unsubscribe cb (unsubscribe cb subs) = unsubscribe cb subs := by
  simp only [unsubscribe_eq_erase]
  apply List.erase_of_not_mem
  have h0 : (subs.erase cb).count cb = 0 := by
    rw [List.count_erase_self]
    omega
  simpa using List.count_eq_zero.mp h0

theorem unsubscribe_idempotent_of_single_w :
    ([5, 7] : List Nat).count 5 ≤ 1
    ∧ unsubscribe 5 (unsubscribe 5 [5, 7]) = unsubscribe 5 [5, 7] :=
  ⟨by decide, unsubscribe_idempotent_of_single 5 [5, 7] (by decide)⟩

end StoreM

namespace DomM

theorem mem_processChildren {args : List RC} {c : RC} :
    c ∈ processChildren args ↔ ∃ x, x ∈ flat1 args ∧ keep x = true ∧ wrap x = c := by
  simp only [processChildren, List.mem_map, List.mem_filter]
  tauto

theorem flat1_mem_of_arr {args xs : List RC} {c : RC}
    (hxs : RC.rarr xs ∈ args) (hc : c ∈ xs) : c ∈ flat1 args := by
  simp only [flat1, List.mem_flatMap]
  exact ⟨RC.rarr xs, hxs, hc⟩

/-- C2: the children sequence built by the Tree Model constructor contains
no null, undefined or false entry; no raw string or number survives, every
string or number of the one-level-flattened argument list appears wrapped
as a text node with its string representation; already-constructed nodes
pass through unchanged; the elements of a top-level array argument join the
sequence (one level of flattening) while an array nested inside an array
argument survives as an entry, so flattening is exactly one level deep. -/
theorem createElement_children_normalized (args : List RC) :
    (∀ t a, createElement t a args = RC.relem t a (processChildren args))
    ∧ (∀ c ∈ processChildren args,
        c ≠ RC.rnull ∧ c ≠ RC.rundef ∧ c ≠ RC.rbool false)
    ∧ (∀ s, RC.rstr s ∉ processChildren args)
    ∧ (∀ n, RC.rnum n ∉ processChildren args)
    ∧ (∀ s, RC.rstr s ∈ flat1 args → RC.rtext s ∈ processChildren args)
    ∧ (∀ n, RC.rnum n ∈ flat1 args → RC.rtext (toString n) ∈ processChildren args)
    ∧ (∀ t a cs, RC.relem t a cs ∈ flat1 args → RC.relem t a cs ∈ processChildren args)
    ∧ (∀ v, RC.rtext v ∈ flat1 args → RC.rtext v ∈ processChildren args)
    ∧ (∀ xs, RC.rarr xs ∈ args → ∀ c ∈ xs, keep c = true → wrap c ∈ processChildren args)
    ∧ (∀ xs ys, RC.rarr xs ∈ args → RC.rarr ys ∈ xs → RC.rarr ys ∈ processChildren args) := by
  refine ⟨fun t a => rfl, ?_, ?_, ?_, ?_, ?_, ?_, ?_, ?_, ?_⟩
  · intro c hc
    obtain ⟨x, hx, hkeep, hwrap⟩ := mem_processChildren.mp hc
    subst hwrap
    cases x <;> simp_all [wrap, keep]
  · intro s hs
    obtain ⟨x, hx, hkeep, hwrap⟩ := mem_processChildren.mp hs
    cases x <;> simp [wrap] at hwrap
  · intro n hn
    obtain ⟨x, hx, hkeep, hwrap⟩ := mem_processChildren.mp hn
    cases x <;> simp [wrap] at hwrap
  · intro s h
    exact mem_processChildren.mpr ⟨RC.rstr s, h, rfl, rfl⟩
  · intro n h
    exact mem_processChildren.mpr ⟨RC.rnum n, h, rfl, rfl⟩
  · intro t a cs h
    exact mem_processChildren.mpr ⟨RC.relem t a cs, h, rfl, rfl⟩
  · intro v h
    exact mem_processChildren.mpr ⟨RC.rtext v, h, rfl, rfl⟩
  · intro xs hxs c hc hkeep
    exact mem_processChildren.mpr ⟨c, flat1_mem_of_arr hxs hc, hkeep, rfl⟩
  · intro xs ys hxs hys
    exact mem_processChildren.mpr ⟨RC.rarr ys, flat1_mem_of_arr hxs hys, rfl, rfl⟩

theorem createElement_children_normalized_w :
    RC.rstr "a" ∈ flat1 [RC.rstr "a", RC.rarr [RC.rnull]]
    ∧ RC.rtext "a" ∈ processChildren [RC.rstr "a", RC.rarr [RC.rnull]] :=
  ⟨List.mem_cons_self _ _,
   (createElement_children_normalized [RC.rstr "a", RC.rarr [RC.rnull]]).2.2.2.2.1
     "a" (List.mem_cons_self _ _)⟩

/-- C3: with the live children in one-to-one correspondence with the old
virtual children, updateChildren is index-positional: every index inside
both sequences patches the new against the old node on the live child at
that position, every index only inside the new sequence renders fresh and
appends, and every index only inside the old sequence removes the live
child at that position. -/
theorem updateChildren_positional {V D : Type} (patchF : V → V → D → D)
    (renderF : V → D) (newC oldC : List V) (live : List D)
    (h : live.length = oldC.length) :
    updateChildren patchF renderF newC oldC live
      = some ((((newC.zip oldC).zip live).map (fun p => patchF p.1.1 p.1.2 p.2))
              ++ (newC.drop oldC.length).map renderF) := by
  induction newC generalizing oldC live with
  | nil =>
    induction oldC generalizing live with
    | nil =>
      cases live with
      | nil => simp [updateChildren]
      | cons d ds => simp at h
    | cons o os iho =>
      cases live with
      | nil => simp at h
      | cons d ds => simpa [updateChildren] using iho ds (by simpa using h)
  | cons n ns ih =>
    cases oldC with
    | nil =>
      cases live with
      | nil => simp [updateChildren]
      | cons d ds => simp at h
    | cons o os =>
      cases live with
      | nil => simp at h
      | cons d ds => simp [updateChildren, ih os ds (by simpa using h)]

theorem updateChildren_positional_w :
    ([10, 20] : List Nat).length = ([1, 2] : List Nat).length
    ∧ updateChildren (fun n o d => n * 100 + o * 10 + d) (fun n => n)
        [7, 8, 9] [1, 2] [10, 20] = some [720, 840, 9] :=
  ⟨rfl, by
    simpa using updateChildren_positional
      (fun n o d : Nat => n * 100 + o * 10 + d) (fun n : Nat => n)
      [7, 8, 9] [1, 2] [10, 20] rfl⟩

/-- C9: render reads vNode.type before the null guard, so the null and
undefined results of a component throw a TypeError instead of being
absorbed, for any fuel; a tag-less element node and a boolean are
absorbed as claimed, returning null and leaving the container unchanged. -/
theorem render_null_throws :
    (∀ fuel c, render (fuel + 1) JsNode.jnull c = Except.error ())
    ∧ (∀ fuel c, render (fuel + 1) JsNode.jundef c = Except.error ())
    ∧ (∀ fuel c a cs, render (fuel + 1) (JsNode.jelem "" a cs) c = Except.ok (c, none))
    ∧ (∀ fuel c b, render (fuel + 1) (JsNode.jbool b) c = Except.ok (c, none)) :=
  ⟨fun _ _ => rfl, fun _ _ => rfl,
   fun fuel c a cs => by simp [render],
   fun _ _ _ => rfl⟩

end DomM

namespace RouterM

/-- C4: route entries are tried in registration order and the first
matching pattern wins; with /users/:id registered before /users/:id/:tab
the path /users/42 matches the first and yields the single decoded
parameter id = 42, and with only /users/:id/:tab registered the path
/users/42/settings yields id = 42 and tab = settings. -/
theorem router_match_order :
    (∀ (rs₁ rs₂ : List RouteEntry) (r : RouteEntry) (p : String) (caps : List String),
      (∀ r' ∈ rs₁, tryMatch r'.toks p.toList = none) →
      tryMatch r.toks p.toList = some caps →
      matchPath (rs₁ ++ r :: rs₂) p
        = some { entry := r, params := buildParams r.paramNames caps })
    ∧ ((matchPath (add (add [] "/users/:id" 0 0) "/users/:id/:tab" 1 0) "/users/42").map
        (fun m => (m.entry.path, m.params)) = some ("/users/:id", [("id", "42")]))
    ∧ ((matchPath (add [] "/users/:id/:tab" 1 0) "/users/42/settings").map
        (fun m => (m.entry.path, m.params))
        = some ("/users/:id/:tab", [("id", "42"), ("tab", "settings")])) := by
  refine ⟨?_, by decide, by decide⟩
  intro rs₁ rs₂ r p caps h1 h2
  induction rs₁ with
  | nil => simp only [List.nil_append, matchPath, h2]
  | cons a t ih =>
    simp only [List.cons_append, matchPath, h1 a (List.mem_cons_self a t)]
    exact ih (fun r' hr' => h1 r' (List.mem_cons_of_mem a hr'))

theorem router_match_order_w :
    (∀ r' ∈ ([] : List RouteEntry), tryMatch r'.toks "/users/42".toList = none)
    ∧ tryMatch routeUsersId.toks "/users/42".toList = some ["42"]
    ∧ matchPath ([] ++ routeUsersId :: [routeUsersIdTab]) "/users/42"
        = some { entry := routeUsersId
                 params := buildParams routeUsersId.paramNames ["42"] } :=
  ⟨fun r' hr' => absurd hr' (List.not_mem_nil r'), by decide,
   router_match_order.1 [] [routeUsersIdTab] routeUsersId "/users/42" ["42"]
     (fun r' hr' => absurd hr' (List.not_mem_nil r')) (by decide)⟩

/-- C5: a beforeEach hook resolving to exactly false makes handleRouteChange
return before the matched handler, the notFound handler, the afterEach hook
or any route-change listener can run. -/
theorem beforeEach_false_blocks
    (hook : Option CurrentRoute → Option CurrentRoute → HookRes)
    (hasNF hasAfter : Bool) (st : RouterSt) (path? : Option String)
    (h : hook (candidateOf st (resolvePath st path?)) st.currentRoute = HookRes.isFalse) :
    ((handleRouteChange (some hook) hasNF hasAfter st path?).2.handlerCalled = none)
    ∧ ((handleRouteChange (some hook) hasNF hasAfter st path?).2.notFoundCalled = none)
    ∧ ((handleRouteChange (some hook) hasNF hasAfter st path?).2.afterCalled = none)
    ∧ ((handleRouteChange (some hook) hasNF hasAfter st path?).2.listenersNotified = none) := by
  simp only [candidateOf] at h
  simp [handleRouteChange, h, noEvents]

theorem beforeEach_false_blocks_w :
    ((fun (_ _ : Option CurrentRoute) => HookRes.isFalse)
        (candidateOf stEx (resolvePath stEx (some "/a"))) stEx.currentRoute
      = HookRes.isFalse)
    ∧ (handleRouteChange (some (fun _ _ => HookRes.isFalse)) false false stEx
        (some "/a")).2.handlerCalled = none :=
  ⟨rfl, (beforeEach_false_blocks (fun _ _ => HookRes.isFalse) false false stEx
    (some "/a") rfl).1⟩

/-- C6 counterexample: on the concrete router stEx with no current route, a
beforeEach hook resolving to exactly false vetoes the transition to /a, yet
getCurrentRoute afterwards differs from the value it held before the call:
the candidate assignment made before the hook ran is not rolled back. -/
theorem route_rollback_cex :
    ¬ (getCurrentRoute (handleRouteChange (some (fun _ _ => HookRes.isFalse))
          false false stEx (some "/a")).1
        = getCurrentRoute stEx) := by decide

/-- C6 amended: when beforeEach resolves to exactly false the handler,
afterEach and listeners are suppressed, but the current route keeps the
candidate value assigned before the hook ran; no rollback to the previous
value happens. -/
theorem beforeEach_false_keeps_candidate
    (hook : Option CurrentRoute → Option CurrentRoute → HookRes)
    (hasNF hasAfter : Bool) (st : RouterSt) (path? : Option String)
    (h : hook (candidateOf st (resolvePath st path?)) st.currentRoute = HookRes.isFalse) :
    getCurrentRoute (handleRouteChange (some hook) hasNF hasAfter st path?).1
      = candidateOf st (resolvePath st path?) := by
  simp only [candidateOf] at h
  simp [handleRouteChange, getCurrentRoute, h, candidateOf]

theorem beforeEach_false_keeps_candidate_w :
    ((fun (_ _ : Option CurrentRoute) => HookRes.isFalse)
        (candidateOf stEx (resolvePath stEx (some "/a"))) stEx.currentRoute
      = HookRes.isFalse)
    ∧ getCurrentRoute (handleRouteChange (some (fun _ _ => HookRes.isFalse))
          false false stEx (some "/a")).1
        = candidateOf stEx (resolvePath stEx (some "/a")) :=
  ⟨rfl, beforeEach_false_keeps_candidate (fun _ _ => HookRes.isFalse) false false stEx
    (some "/a") rfl⟩

/-- C10: a double-star wildcard compiles to a capturing group but
contributes no parameter name, and match assigns captures to names purely
by position: /files/** matches /files/a/b capturing a/b yet exposes an
empty params mapping, while in /files/**/:name (wildcard before the named
segment) the wildcard's captured text a/b is assigned to name and the
overflow capture lands on the key "undefined". -/
theorem wildcard_capture_positional :
    extractParams "/files/**".toList = []
    ∧ (tokenize (collapseSlashes "/files/**".toList)).countP isCaptureGroup = 1
    ∧ Tok.star ∈ tokenize (collapseSlashes "/files/**".toList)
    ∧ tryMatch (tokenize (collapseSlashes "/files/**".toList)) "/files/a/b".toList
        = some ["a/b"]
    ∧ (matchPath (add [] "/files/**" 0 0) "/files/a/b").map (fun m => m.params)
        = some []
    ∧ extractParams "/files/**/:name".toList = ["name"]
    ∧ (tokenize (collapseSlashes "/files/**/:name".toList)).countP isCaptureGroup = 2
    ∧ (matchPath (add [] "/files/**/:name" 1 0) "/files/a/b/c").map (fun m => m.params)
        = some [("name", "a/b"), ("undefined", "c")] := by
  decide

end RouterM

end MiniFramework
